import Mathlib

/-!
Verification of the tiltrotor control core (ArduPlane/tiltrotor.cpp).

Shallow embedding conventions:
* `float` values are modelled as exact rationals (ℚ); the code under study
  performs only field arithmetic, comparisons and clamping on them.
* The transcendental helpers `sinf(radians ·)` / `cosf(radians ·)` are
  abstracted as function parameters `sinDeg cosDeg : ℚ → ℚ` (argument in
  degrees); no claim below depends on their analytic properties beyond
  range bounds, which appear as explicit hypotheses where needed.
* The per-motor thrust array `float *thrust` with `uint8_t num_motors` is
  modelled as a function `Nat → ℚ` together with a length `n : Nat`;
  indices `≥ n` are untouched, exactly as in the C code.
* `uint32_t` millisecond timestamps are `Nat` below `2^32`, with wrapping
  subtraction made explicit.
-/

namespace Tiltrotor

/-- ArduPilot `constrain_float(amt, low, high)` (NaN-free case). -/
def constrain_float (amt low high : ℚ) : ℚ :=
  if amt < low then low else if amt > high then high else amt

/-- Tiltrotor actuation types (`Q_TILT_TYPE`). -/
inductive TiltType where
  | continuous
  | binary
  | vectoredYaw
  | bicopter
deriving DecidableEq, Repr

/-- Per-cycle context read by the slew limiter: configuration parameters and
flight-mode flags (`tiltrotor.cpp:131-154`). -/
structure SlewCtx where
  ttype : TiltType
  max_rate_up_dps : ℚ
  max_rate_down_dps : ℚ
  /-- plane.control_mode == mode_manual -/
  mode_manual : Bool
  /-- hal.util->get_soft_armed() -/
  armed : Bool
  /-- quadplane.in_vtol_mode() -/
  in_vtol_mode : Bool
  /-- quadplane.assisted_flight -/
  assisted_flight : Bool
  /-- plane.G_Dt, the cycle delta-time in seconds -/
  G_Dt : ℚ
deriving Repr

/-- First step of `Tiltrotor::tilt_max_change`: the base rate is
`max_rate_up_dps` when moving up or when `max_rate_down_dps <= 0`,
otherwise `max_rate_down_dps` (`tiltrotor.cpp:133-138`). -/
def base_rate (c : SlewCtx) (up : Bool) : ℚ :=
  if up || decide (c.max_rate_down_dps ≤ 0) then c.max_rate_up_dps
  else c.max_rate_down_dps

/-- The fast-tilt condition of `Tiltrotor::tilt_max_change`
(`tiltrotor.cpp:140-146`): manual mode, or armed and neither in VTOL mode
nor in assisted flight. -/
def fast_tilt_cond (c : SlewCtx) : Bool :=
  c.mode_manual || (c.armed && !c.in_vtol_mode && !c.assisted_flight)

/-- The rate actually used by `Tiltrotor::tilt_max_change` after the
fast-tilt floor (`tiltrotor.cpp:139-152`): for non-Binary types moving
down, the base rate is floored at 90 deg/s when the fast-tilt condition
holds. -/
def effective_rate (c : SlewCtx) (up : Bool) : ℚ :=
  if c.ttype ≠ TiltType.binary ∧ up = false then
    (if fast_tilt_cond c then max (base_rate c up) 90 else base_rate c up)
  else base_rate c up

/-- `Tiltrotor::tilt_max_change(bool up)` (`tiltrotor.cpp:131-154`):
maximum tilt change this cycle as a proportion of 0..1 tilt. -/
def tilt_max_change (c : SlewCtx) (up : Bool) : ℚ :=
  effective_rate c up * c.G_Dt / 90

/-- `Tiltrotor::slew(float newtilt)` (`tiltrotor.cpp:159-166`), restricted
to its effect on `current_tilt`; returns the new `current_tilt`. -/
def slew (c : SlewCtx) (current_tilt newtilt : ℚ) : ℚ :=
  constrain_float newtilt
    (current_tilt - tilt_max_change c (decide (newtilt < current_tilt)))
    (current_tilt + tilt_max_change c (decide (newtilt < current_tilt)))

/-- The servo command written by `Tiltrotor::slew` (`tiltrotor.cpp:165`). -/
def slew_servo (c : SlewCtx) (current_tilt newtilt : ℚ) : ℚ :=
  1000 * slew c current_tilt newtilt

/-- `Tiltrotor::binary_slew(bool forward)` (`tiltrotor.cpp:277-289`),
restricted to its effect on `current_tilt`. -/
def binary_slew_tilt (c : SlewCtx) (current_tilt : ℚ) (forward : Bool) : ℚ :=
  if forward then constrain_float (current_tilt + tilt_max_change c (!forward)) 0 1
  else constrain_float (current_tilt - tilt_max_change c (!forward)) 0 1

/-- The (unslewed) binary servo command of `Tiltrotor::binary_slew`
(`tiltrotor.cpp:280`). -/
def binary_slew_servo (forward : Bool) : ℚ :=
  if forward then 1000 else 0

/-- Result of one cycle of `Tiltrotor::binary_update`
(`tiltrotor.cpp:294-313`): the new `current_tilt`, the binary tilt-servo
command, and the masked forward-motor output
(`motors->output_motor_mask(throttle, mask, ...)`) when it is issued. -/
structure BinaryUpdateResult where
  newTilt : ℚ
  servo : ℚ
  fwdOut : Option (ℚ × Nat)
deriving Repr, DecidableEq

/-- `Tiltrotor::binary_update` (`tiltrotor.cpp:294-313`).
`throttle_scaled` is `SRV_Channels::get_output_scaled(k_throttle)` and
`tmask` is the `tilt_mask` parameter. The servo command is written by the
`binary_slew` call before the `current_tilt >= 1` gate, so the gate sees
the already-slewed tilt of this cycle. -/
def binary_update (c : SlewCtx) (in_vtol : Bool) (throttle_scaled : ℚ)
    (tmask : Nat) (current_tilt : ℚ) : BinaryUpdateResult :=
  if !in_vtol then
    let ct := binary_slew_tilt c current_tilt true
    let new_throttle := throttle_scaled * (1 / 100)
    if ct ≥ 1 then
      let mask := if new_throttle = 0 then 0 else tmask
      ⟨ct, binary_slew_servo true, some (new_throttle, mask)⟩
    else
      ⟨ct, binary_slew_servo true, none⟩
  else
    ⟨binary_slew_tilt c current_tilt false, binary_slew_servo false, none⟩

/-! ## Thrust compensation (`tiltrotor.cpp:357-429`) -/

/-- Modelled from the spec: `Tiltrotor::is_motor_tilting(uint8_t motor)` is
declared in `tiltrotor.h` (not part of the sources here); per the spec,
`tilt_mask` is a bitmask over motor indices in the external mixer's
canonical order, marking which motors are tiltable. -/
def is_motor_tilting (tilt_mask : Nat) (motor : Nat) : Bool :=
  Nat.testBit tilt_mask motor

/-- First loop of `Tiltrotor::tilt_compensate_angle`
(`tiltrotor.cpp:363-371`): apply the tilted / non-tilted multiplier to
every motor index below `n`. -/
def tca_pass1 (tilt_mask : Nat) (non_tilted_mul tilted_mul : ℚ) (n : Nat)
    (thrust : Nat → ℚ) : Nat → ℚ :=
  fun i =>
    if i < n then
      if is_motor_tilting tilt_mask i then thrust i * tilted_mul
      else thrust i * non_tilted_mul
    else thrust i

/-- Accumulated `tilt_total` of `Tiltrotor::tilt_compensate_angle`
(`tiltrotor.cpp:359-370`): sum of the (already multiplied) thrust of the
tilting motors among the first `n`. -/
def tilt_total (tilt_mask : Nat) (thrust : Nat → ℚ) : Nat → ℚ
  | 0 => 0
  | n + 1 =>
    if is_motor_tilting tilt_mask n then tilt_total tilt_mask thrust n + thrust n
    else tilt_total tilt_mask thrust n

/-- Accumulated `tilt_count` of `Tiltrotor::tilt_compensate_angle`
(`tiltrotor.cpp:360-369`): number of tilting motors among the first `n`. -/
def tilt_count (tilt_mask : Nat) : Nat → Nat
  | 0 => 0
  | n + 1 =>
    if is_motor_tilting tilt_mask n then tilt_count tilt_mask n + 1
    else tilt_count tilt_mask n

/-- `avg_tilt_thrust` of `Tiltrotor::tilt_compensate_angle`
(`tiltrotor.cpp:379`): `tilt_total / tilt_count`, computed with no guard
against `tilt_count == 0` (ℚ division by zero yields 0 here; the C float
division yields NaN, which the second loop then never reads since it has
no tilting index either). -/
def avg_tilt_thrust (tilt_mask : Nat) (non_tilted_mul tilted_mul : ℚ) (n : Nat)
    (thrust : Nat → ℚ) : ℚ :=
  tilt_total tilt_mask (tca_pass1 tilt_mask non_tilted_mul tilted_mul n thrust) n /
    (tilt_count tilt_mask n : ℚ)

/-- Per-cycle context read by the second loop of
`Tiltrotor::tilt_compensate_angle` (`tiltrotor.cpp:374-392`):
`current_tilt`, the precomputed `sin_tilt = sinf(radians(current_tilt*90))`
and `yaw_gain = sinf(radians(tilt_yaw_angle))` values, the mixer's yaw
demand `motors->get_yaw()` and the per-motor `motors->get_roll_factor(i)`. -/
structure CompCtx where
  tilt_mask : Nat
  current_tilt : ℚ
  sin_tilt : ℚ
  yaw_gain : ℚ
  yaw : ℚ
  roll_factor : Nat → ℚ

/-- Second loop of `Tiltrotor::tilt_compensate_angle`
(`tiltrotor.cpp:381-392`): blend each tilting motor toward the tilted-motor
average in proportion to `current_tilt`, then add the differential yaw
thrust. `avg` is the unguarded `avg_tilt_thrust`. -/
def tca_pass2 (ctx : CompCtx) (avg : ℚ) (n : Nat) (thrust : Nat → ℚ) : Nat → ℚ :=
  fun i =>
    if i < n ∧ is_motor_tilting ctx.tilt_mask i then
      ctx.current_tilt * avg + thrust i * (1 - ctx.current_tilt) +
        ctx.roll_factor i * ctx.yaw * ctx.sin_tilt * ctx.yaw_gain
    else thrust i

/-- `largest_tilted` of `Tiltrotor::tilt_compensate_angle`
(`tiltrotor.cpp:373-391`): running `MAX` (from 0) of the post-adjustment
thrust over the tilting motors among the first `n`. -/
def largest_tilted (tilt_mask : Nat) (thrust : Nat → ℚ) : Nat → ℚ
  | 0 => 0
  | n + 1 =>
    if is_motor_tilting tilt_mask n then max (largest_tilted tilt_mask thrust n) (thrust n)
    else largest_tilted tilt_mask thrust n

/-- The thrust array of `Tiltrotor::tilt_compensate_angle` just before the
saturation check (`tiltrotor.cpp:357-392`): both loops applied. -/
def tca_pre (ctx : CompCtx) (non_tilted_mul tilted_mul : ℚ) (n : Nat)
    (thrust : Nat → ℚ) : Nat → ℚ :=
  tca_pass2 ctx (avg_tilt_thrust ctx.tilt_mask non_tilted_mul tilted_mul n thrust) n
    (tca_pass1 ctx.tilt_mask non_tilted_mul tilted_mul n thrust)

/-- `Tiltrotor::tilt_compensate_angle` (`tiltrotor.cpp:357-403`): both
loops, then if the largest tilted thrust exceeds 1 rescale every motor
below `n` by `scale = 1 / largest_tilted`. -/
def tilt_compensate_angle (ctx : CompCtx) (non_tilted_mul tilted_mul : ℚ)
    (n : Nat) (thrust : Nat → ℚ) : Nat → ℚ :=
  let pre := tca_pre ctx non_tilted_mul tilted_mul n thrust
  let largest := largest_tilted ctx.tilt_mask pre n
  if largest > 1 then fun i => if i < n then pre i * (1 / largest) else pre i
  else pre

/-- `Tiltrotor::tilt_compensate` (`tiltrotor.cpp:410-429`), the thrust
compensation callback. `cosDeg` abstracts `cosf(radians ·)` (degrees).
Returns the thrust array unchanged when `current_tilt <= 0`; otherwise
delegates to `tilt_compensate_angle` with the multiplier pair selected by
`in_vtol`. -/
def tilt_compensate (cosDeg : ℚ → ℚ) (ctx : CompCtx) (in_vtol : Bool)
    (n : Nat) (thrust : Nat → ℚ) : Nat → ℚ :=
  if ctx.current_tilt ≤ 0 then thrust
  else if in_vtol then
    tilt_compensate_angle ctx (cosDeg (ctx.current_tilt * 90)) 1 n thrust
  else
    let inv_tilt_factor :=
      if ctx.current_tilt > 98 / 100 then 1 / cosDeg (98 / 100 * 90)
      else 1 / cosDeg (ctx.current_tilt * 90)
    tilt_compensate_angle ctx 1 inv_tilt_factor n thrust

/-! ## Vectoring (`tiltrotor.cpp:445-529`) -/

/-- `total_angle` of `Tiltrotor::vectoring` (`tiltrotor.cpp:448`). -/
def total_angle (tilt_yaw_angle fixed_angle : ℚ) : ℚ :=
  90 + tilt_yaw_angle + fixed_angle

/-- `zero_out` of `Tiltrotor::vectoring` (`tiltrotor.cpp:450`): output
value (0 to 1) that points the motors straight up. -/
def zero_out (tilt_yaw_angle fixed_angle : ℚ) : ℚ :=
  tilt_yaw_angle / total_angle tilt_yaw_angle fixed_angle

/-- `fixed_tilt_limit` of `Tiltrotor::vectoring` (`tiltrotor.cpp:451`). -/
def fixed_tilt_limit (tilt_yaw_angle fixed_angle : ℚ) : ℚ :=
  fixed_angle / total_angle tilt_yaw_angle fixed_angle

/-- `level_out` of `Tiltrotor::vectoring` (`tiltrotor.cpp:452`). -/
def level_out (tilt_yaw_angle fixed_angle : ℚ) : ℚ :=
  1 - fixed_tilt_limit tilt_yaw_angle fixed_angle

/-- `base_output` of `Tiltrotor::vectoring` (`tiltrotor.cpp:455`): linear
interpolation of `current_tilt` between `zero_out` and `level_out`. -/
def base_output (tilt_yaw_angle fixed_angle current_tilt : ℚ) : ℚ :=
  zero_out tilt_yaw_angle fixed_angle +
    current_tilt * (level_out tilt_yaw_angle fixed_angle - zero_out tilt_yaw_angle fixed_angle)

/-- Wrapping `uint32_t` subtraction `a - b`, for `a b < 2^32`. -/
def u32_sub (a b : Nat) : Nat :=
  (a + 2 ^ 32 - b) % 2 ^ 32

/-- Context read by the ground-test branch of `Tiltrotor::vectoring`
(`tiltrotor.cpp:456-491`). -/
structure VecCtx where
  tilt_yaw_angle : ℚ
  fixed_angle : ℚ
  fixed_gain : ℚ
  current_tilt : ℚ
  /-- hal.util->get_soft_armed() -/
  armed : Bool
  /-- quadplane.options & OPTION_DISARMED_TILT -/
  opt_disarmed_tilt : Bool
  /-- AP_HAL::millis() -/
  now : Nat
  /-- hal.util->get_last_armed_change() -/
  last_armed_change : Nat
  /-- quadplane.in_vtol_mode() -/
  in_vtol : Bool
  /-- plane.channel_rudder->get_control_in() -/
  rudder_in : ℚ
  /-- plane.channel_rudder->get_range() -/
  rudder_range : ℚ
  /-- SRV_Channels::get_output_scaled(k_elevon_right) -/
  elevon_right : ℚ
  /-- SRV_Channels::get_output_scaled(k_elevon_left) -/
  elevon_left : ℚ
  /-- SRV_Channels::get_output_scaled(k_elevator) -/
  elevator : ℚ

/-- The ground-test branch of `Tiltrotor::vectoring`
(`tiltrotor.cpp:456-491`): when disarmed with `OPTION_DISARMED_TILT` set
and more than `TILT_DELAY_MS = 3000` ms elapsed since the last arm-state
change, returns the five tilt-servo commands written by that branch, in
the order left, right, rear, rear-left, rear-right; otherwise the branch
writes nothing (`none`). -/
def vectoring_ground_writes (c : VecCtx) : Option (List ℚ) :=
  let zo := zero_out c.tilt_yaw_angle c.fixed_angle
  let ftl := fixed_tilt_limit c.tilt_yaw_angle c.fixed_angle
  let base := base_output c.tilt_yaw_angle c.fixed_angle c.current_tilt
  if !c.armed && c.opt_disarmed_tilt then
    if u32_sub c.now c.last_armed_change > 3000 then
      if c.in_vtol then
        let yaw_out := c.rudder_in / c.rudder_range
        let yaw_range := zo
        some [1000 * constrain_float (base + yaw_out * yaw_range) 0 1,
              1000 * constrain_float (base - yaw_out * yaw_range) 0 1,
              1000 * constrain_float base 0 1,
              1000 * constrain_float (base + yaw_out * yaw_range) 0 1,
              1000 * constrain_float (base - yaw_out * yaw_range) 0 1]
      else
        let gain := c.fixed_gain * ftl
        let right := gain * c.elevon_right / 4500
        let left := gain * c.elevon_left / 4500
        let mid := gain * c.elevator / 4500
        some [1000 * constrain_float (base - right) 0 1,
              1000 * constrain_float (base - left) 0 1,
              1000 * constrain_float (base + mid) 0 1,
              1000 * constrain_float (base + left) 0 1,
              1000 * constrain_float (base + right) 0 1]
    else none
  else none

/-! ## Cycle traces for the tilt-state invariant -/

/-- One `current_tilt` mutation of the control loop: a continuous
`Tiltrotor::slew` toward a target, or a `Tiltrotor::binary_slew`. -/
inductive TiltOp where
  | cont (c : SlewCtx) (target : ℚ)
  | binary (c : SlewCtx) (forward : Bool)

/-- Apply one tilt operation to `current_tilt`. -/
def tilt_step (current_tilt : ℚ) : TiltOp → ℚ
  | TiltOp.cont c target => slew c current_tilt target
  | TiltOp.binary c forward => binary_slew_tilt c current_tilt forward

/-- Run a sequence of tilt operations from an initial `current_tilt`. -/
def tilt_run (current_tilt : ℚ) (ops : List TiltOp) : ℚ :=
  ops.foldl tilt_step current_tilt

/-- Well-formedness of one cycle's inputs: nonnegative configured rate and
cycle delta-time, and (for the continuous case) a slew target in [0,1]. -/
def ValidOp : TiltOp → Prop
  | TiltOp.cont c target =>
      0 ≤ c.max_rate_up_dps ∧ 0 ≤ c.G_Dt ∧ 0 ≤ target ∧ target ≤ 1
  | TiltOp.binary _ _ => True

/-! ## Basic lemmas -/

theorem constrain_float_mem (amt low high : ℚ) (h : low ≤ high) :
    low ≤ constrain_float amt low high ∧ constrain_float amt low high ≤ high := by
  unfold constrain_float
  split_ifs <;> constructor <;> linarith

theorem base_rate_nonneg (c : SlewCtx) (up : Bool) (hup : 0 ≤ c.max_rate_up_dps) :
    0 ≤ base_rate c up := by
  unfold base_rate
  split_ifs with h
  · exact hup
  · simp only [Bool.or_eq_true, decide_eq_true_eq, not_or] at h
    linarith [h.2]

theorem effective_rate_nonneg (c : SlewCtx) (up : Bool) (hup : 0 ≤ c.max_rate_up_dps) :
    0 ≤ effective_rate c up := by
  unfold effective_rate
  have hb := base_rate_nonneg c up hup
  split_ifs with h1 h2
  · exact le_trans hb (le_max_left _ _)
  · exact hb
  · exact hb

theorem tilt_max_change_nonneg (c : SlewCtx) (up : Bool)
    (hup : 0 ≤ c.max_rate_up_dps) (hdt : 0 ≤ c.G_Dt) :
    0 ≤ tilt_max_change c up := by
  unfold tilt_max_change
  have := effective_rate_nonneg c up hup
  positivity

theorem largest_tilted_mono (m : Nat) (f : Nat → ℚ) (n : Nat) :
    largest_tilted m f n ≤ largest_tilted m f (n + 1) := by
  by_cases h : is_motor_tilting m n = true
  · simp [largest_tilted, h, le_max_left]
  · simp [largest_tilted, h]

theorem le_largest_tilted (m : Nat) (f : Nat → ℚ) :
    ∀ n i, i < n → is_motor_tilting m i = true → f i ≤ largest_tilted m f n := by
  intro n
  induction n with
  | zero => intro i hi; omega
  | succ k ih =>
    intro i hi ht
    rcases Nat.lt_or_ge i k with hik | hik
    · exact le_trans (ih i hik ht) (largest_tilted_mono m f k)
    · have hik' : i = k := by omega
      subst hik'
      unfold largest_tilted
      rw [ht]
      simp only [if_true]
      exact le_max_right _ _

/-- For a non-tilting motor index below `n`, the pre-saturation thrust is
exactly the input thrust times the non-tilted multiplier. -/
theorem tca_pre_not_tilting (ctx : CompCtx) (ntm tm : ℚ) (n : Nat)
    (thrust : Nat → ℚ) (i : Nat) (hi : i < n)
    (ht : is_motor_tilting ctx.tilt_mask i = false) :
    tca_pre ctx ntm tm n thrust i = thrust i * ntm := by
  unfold tca_pre tca_pass2 tca_pass1
  simp [hi, ht]

/-- Every tilting motor's pre-saturation thrust is bounded by
`largest_tilted` over the pre-saturation array. -/
theorem tca_pre_le_largest (ctx : CompCtx) (ntm tm : ℚ) (n : Nat)
    (thrust : Nat → ℚ) (i : Nat) (hi : i < n)
    (ht : is_motor_tilting ctx.tilt_mask i = true) :
    tca_pre ctx ntm tm n thrust i
      ≤ largest_tilted ctx.tilt_mask (tca_pre ctx ntm tm n thrust) n :=
  le_largest_tilted ctx.tilt_mask (tca_pre ctx ntm tm n thrust) n i hi ht

/-- Core saturation bound of `Tiltrotor::tilt_compensate_angle`: with all
input entries in [0,1] and a non-tilted multiplier in [0,1], no output
entry below `n` exceeds 1, for any tilted multiplier. -/
theorem tilt_compensate_angle_le_one (ctx : CompCtx) (ntm tm : ℚ) (n : Nat)
    (thrust : Nat → ℚ)
    (hin : ∀ i, i < n → 0 ≤ thrust i ∧ thrust i ≤ 1)
    (hntm0 : 0 ≤ ntm) (hntm1 : ntm ≤ 1) :
    ∀ i, i < n → tilt_compensate_angle ctx ntm tm n thrust i ≤ 1 := by
  intro i hi
  unfold tilt_compensate_angle
  by_cases hL : largest_tilted ctx.tilt_mask (tca_pre ctx ntm tm n thrust) n > 1
  · simp only [hL, if_true, hi]
    by_cases ht : is_motor_tilting ctx.tilt_mask i
    · have h1 := tca_pre_le_largest ctx ntm tm n thrust i hi ht
      have hL0 : (0:ℚ) < largest_tilted ctx.tilt_mask (tca_pre ctx ntm tm n thrust) n := by
        linarith
      have h2 : tca_pre ctx ntm tm n thrust i *
          (1 / largest_tilted ctx.tilt_mask (tca_pre ctx ntm tm n thrust) n)
          ≤ largest_tilted ctx.tilt_mask (tca_pre ctx ntm tm n thrust) n *
          (1 / largest_tilted ctx.tilt_mask (tca_pre ctx ntm tm n thrust) n) := by
        apply mul_le_mul_of_nonneg_right h1
        positivity
      rw [mul_one_div_cancel (ne_of_gt hL0)] at h2
      exact h2
    · rw [tca_pre_not_tilting ctx ntm tm n thrust i hi (by simpa using ht)]
      have h0 := (hin i hi).1
      have h1 := (hin i hi).2
      have hs : 1 / largest_tilted ctx.tilt_mask (tca_pre ctx ntm tm n thrust) n ≤ 1 := by
        rw [div_le_one (by linarith)]
        linarith
      have hs0 : 0 ≤ 1 / largest_tilted ctx.tilt_mask (tca_pre ctx ntm tm n thrust) n := by
        positivity
      have p1 : thrust i * ntm ≤ 1 := mul_le_one₀ h1 hntm0 hntm1
      exact mul_le_one₀ p1 hs0 hs
  · simp only [hL, if_false]
    push_neg at hL
    by_cases ht : is_motor_tilting ctx.tilt_mask i
    · exact le_trans (tca_pre_le_largest ctx ntm tm n thrust i hi ht) hL
    · rw [tca_pre_not_tilting ctx ntm tm n thrust i hi (by simpa using ht)]
      have h0 := (hin i hi).1
      have h1 := (hin i hi).2
      exact mul_le_one₀ h1 hntm0 hntm1

/-! ## Claim theorems -/

/-- C1: for every call to the thrust compensation callback
(`Tiltrotor::tilt_compensate`) with all input thrust entries in [0,1] (and
the non-tilted multiplier `cos(current_tilt*90°)` in [0,1], as cosine of a
0..90 degree angle is), no motor's thrust entry exceeds 1.0 after
processing: the final uniform rescale by `1/largest` bounds all tilted
motors at 1.0, and non-tilted motors, never multiplied by a factor greater
than 1, stay at or below 1.0. -/
theorem C1_thrust_compensate_le_one (cosDeg : ℚ → ℚ) (ctx : CompCtx)
    (in_vtol : Bool) (n : Nat) (thrust : Nat → ℚ)
    (hin : ∀ i, i < n → 0 ≤ thrust i ∧ thrust i ≤ 1)
    (hcos0 : 0 ≤ cosDeg (ctx.current_tilt * 90))
    (hcos1 : cosDeg (ctx.current_tilt * 90) ≤ 1) :
    ∀ i, i < n → tilt_compensate cosDeg ctx in_vtol n thrust i ≤ 1 := by
  intro i hi
  unfold tilt_compensate
  split_ifs with h1 h2 h3
  · exact (hin i hi).2
  · exact tilt_compensate_angle_le_one ctx _ 1 n thrust hin hcos0 hcos1 i hi
  · exact tilt_compensate_angle_le_one ctx 1 _ n thrust hin (by norm_num) le_rfl i hi
  · exact tilt_compensate_angle_le_one ctx 1 _ n thrust hin (by norm_num) le_rfl i hi

theorem C1_witness :
    tilt_compensate (fun _ => 1/2) ⟨1, 1/2, 0, 0, 0, fun _ => 0⟩ true 1 (fun _ => 1) 0 ≤ 1 :=
  C1_thrust_compensate_le_one (fun _ => 1/2) ⟨1, 1/2, 0, 0, 0, fun _ => 0⟩ true 1 (fun _ => 1)
    (fun _ _ => ⟨by norm_num, le_rfl⟩)
    (show (0:ℚ) ≤ 1/2 by norm_num) (show (1:ℚ)/2 ≤ 1 by norm_num)
    0 (by norm_num)

/-- C2: for every cycle, both the continuous slew (`Tiltrotor::slew`) and
the binary slew (`Tiltrotor::binary_slew`) change `current_tilt` by at
most `tilt_max_change` for that cycle's direction of motion
(`newtilt < current_tilt` for the continuous case, `!forward` for the
binary case), given a nonnegative configured up-rate and cycle delta-time
and a previous tilt in [0,1]. -/
theorem C2_slew_bounded_by_max_change (c : SlewCtx) (current_tilt newtilt : ℚ)
    (forward : Bool)
    (hup : 0 ≤ c.max_rate_up_dps) (hdt : 0 ≤ c.G_Dt)
    (hct0 : 0 ≤ current_tilt) (hct1 : current_tilt ≤ 1) :
    |slew c current_tilt newtilt - current_tilt|
        ≤ tilt_max_change c (decide (newtilt < current_tilt))
    ∧ |binary_slew_tilt c current_tilt forward - current_tilt|
        ≤ tilt_max_change c (!forward) := by
  have hmcb := tilt_max_change_nonneg c (!forward) hup hdt
  constructor
  · have hmcs := tilt_max_change_nonneg c (decide (newtilt < current_tilt)) hup hdt
    have hmem := constrain_float_mem newtilt
      (current_tilt - tilt_max_change c (decide (newtilt < current_tilt)))
      (current_tilt + tilt_max_change c (decide (newtilt < current_tilt)))
      (by linarith)
    unfold slew
    rw [abs_le]
    exact ⟨by linarith [hmem.1], by linarith [hmem.2]⟩
  · cases forward with
    | true =>
      simp only [binary_slew_tilt, if_true]
      unfold constrain_float
      split_ifs with h1 h2 <;> rw [abs_le] <;> constructor <;> linarith
    | false =>
      simp only [binary_slew_tilt, Bool.false_eq_true, if_false]
      unfold constrain_float
      split_ifs with h1 h2 <;> rw [abs_le] <;> constructor <;> linarith

theorem C2_witness :
    |slew ⟨TiltType.continuous, 40, 0, false, false, true, false, 1/50⟩ (1/2) 1 - 1/2|
        ≤ tilt_max_change ⟨TiltType.continuous, 40, 0, false, false, true, false, 1/50⟩
            (decide ((1:ℚ) < 1/2))
    ∧ |binary_slew_tilt ⟨TiltType.continuous, 40, 0, false, false, true, false, 1/50⟩
          (1/2) true - 1/2|
        ≤ tilt_max_change ⟨TiltType.continuous, 40, 0, false, false, true, false, 1/50⟩
            (!true) :=
  C2_slew_bounded_by_max_change ⟨TiltType.continuous, 40, 0, false, false, true, false, 1/50⟩
    (1/2) 1 true (show (0:ℚ) ≤ 40 by norm_num) (show (0:ℚ) ≤ 1/50 by norm_num)
    (by norm_num) (by norm_num)

/-- C4: when `current_tilt == 0`, the thrust compensation callback
(`Tiltrotor::tilt_compensate`) is a no-op: for every input thrust array
and motor count, the output array equals the input array. -/
theorem C4_tilt_compensate_no_op_at_zero (cosDeg : ℚ → ℚ) (mask : Nat)
    (s g y : ℚ) (rf : Nat → ℚ) (in_vtol : Bool) (n : Nat) (thrust : Nat → ℚ) :
    tilt_compensate cosDeg ⟨mask, 0, s, g, y, rf⟩ in_vtol n thrust = thrust := by
  unfold tilt_compensate
  norm_num

theorem slew_mem_unit (c : SlewCtx) (ct t : ℚ)
    (hup : 0 ≤ c.max_rate_up_dps) (hdt : 0 ≤ c.G_Dt)
    (hct0 : 0 ≤ ct) (hct1 : ct ≤ 1) (ht0 : 0 ≤ t) (ht1 : t ≤ 1) :
    0 ≤ slew c ct t ∧ slew c ct t ≤ 1 := by
  have hmc := tilt_max_change_nonneg c (decide (t < ct)) hup hdt
  unfold slew constrain_float
  split_ifs with h1 h2 <;> constructor <;> linarith

theorem binary_slew_tilt_mem_unit (c : SlewCtx) (ct : ℚ) (forward : Bool) :
    0 ≤ binary_slew_tilt c ct forward ∧ binary_slew_tilt c ct forward ≤ 1 := by
  unfold binary_slew_tilt constrain_float
  split_ifs <;> constructor <;> linarith

theorem tilt_run_mem_unit (ops : List TiltOp) :
    ∀ ct, (∀ op ∈ ops, ValidOp op) → 0 ≤ ct → ct ≤ 1 →
      0 ≤ tilt_run ct ops ∧ tilt_run ct ops ≤ 1 := by
  induction ops with
  | nil => intro ct _ h0 h1; exact ⟨h0, h1⟩
  | cons op rest ih =>
    intro ct hv h0 h1
    have hop : ValidOp op := hv op (List.mem_cons_self op rest)
    have hrest : ∀ o ∈ rest, ValidOp o := fun o ho => hv o (List.mem_cons_of_mem op ho)
    have hstep : tilt_run ct (op :: rest) = tilt_run (tilt_step ct op) rest := rfl
    rw [hstep]
    cases op with
    | cont c t =>
      obtain ⟨hu, hd, ht0, ht1⟩ := hop
      have hm := slew_mem_unit c ct t hu hd h0 h1 ht0 ht1
      exact ih (tilt_step ct (TiltOp.cont c t)) hrest hm.1 hm.2
    | binary c f =>
      have hm := binary_slew_tilt_mem_unit c ct f
      exact ih (tilt_step ct (TiltOp.binary c f)) hrest hm.1 hm.2

/-- C3: `current_tilt` remains in [0,1] across every operation: starting
from the initial value 0, every sequence of continuous slews with targets
in [0,1] (with nonnegative configured rate and cycle delta-time) and
binary slews leaves `current_tilt` in [0,1]. -/
theorem C3_current_tilt_in_unit_interval (ops : List TiltOp)
    (hv : ∀ op ∈ ops, ValidOp op) :
    0 ≤ tilt_run 0 ops ∧ tilt_run 0 ops ≤ 1 :=
  tilt_run_mem_unit ops 0 hv le_rfl (by norm_num)

theorem C3_witness :
    0 ≤ tilt_run 0
        [TiltOp.cont ⟨TiltType.continuous, 40, 0, false, false, true, false, 1/50⟩ (1/2),
         TiltOp.binary ⟨TiltType.binary, 40, 0, false, true, false, false, 1/50⟩ true]
    ∧ tilt_run 0
        [TiltOp.cont ⟨TiltType.continuous, 40, 0, false, false, true, false, 1/50⟩ (1/2),
         TiltOp.binary ⟨TiltType.binary, 40, 0, false, true, false, false, 1/50⟩ true] ≤ 1 :=
  C3_current_tilt_in_unit_interval _ (by
    intro op hop
    rcases List.mem_cons.mp hop with h | hop
    · subst h
      exact ⟨by norm_num, by norm_num, by norm_num, by norm_num⟩
    · rcases List.mem_cons.mp hop with h | hop
      · subst h
        trivial
      · cases hop)

/-- When the saturation check of `Tiltrotor::tilt_compensate_angle`
triggers, the output is the pre-saturation array with every entry below
`n` multiplied by `1 / largest_tilted`. -/
theorem tilt_compensate_angle_of_trigger (ctx : CompCtx) (ntm tm : ℚ)
    (n : Nat) (thrust : Nat → ℚ)
    (htrig : 1 < largest_tilted ctx.tilt_mask (tca_pre ctx ntm tm n thrust) n) :
    tilt_compensate_angle ctx ntm tm n thrust
      = fun i => if i < n then
          tca_pre ctx ntm tm n thrust i *
            (1 / largest_tilted ctx.tilt_mask (tca_pre ctx ntm tm n thrust) n)
        else tca_pre ctx ntm tm n thrust i := by
  simp only [tilt_compensate_angle]
  rw [if_pos htrig]

/-- C5: whenever the saturation rescale of
`Tiltrotor::tilt_compensate_angle` triggers (`largest_tilted > 1`), every
motor below `n` — tilted and non-tilted — is multiplied by the same factor
`1 / largest_tilted`, so every motor pair with nonzero pre-rescale thrust
keeps its pre-rescale thrust ratio. -/
theorem C5_rescale_preserves_ratios (ctx : CompCtx) (ntm tm : ℚ) (n : Nat)
    (thrust : Nat → ℚ)
    (htrig : 1 < largest_tilted ctx.tilt_mask (tca_pre ctx ntm tm n thrust) n) :
    (∀ i, i < n →
      tilt_compensate_angle ctx ntm tm n thrust i
        = tca_pre ctx ntm tm n thrust i *
          (1 / largest_tilted ctx.tilt_mask (tca_pre ctx ntm tm n thrust) n))
    ∧ (∀ i j, i < n → j < n →
      tca_pre ctx ntm tm n thrust i ≠ 0 → tca_pre ctx ntm tm n thrust j ≠ 0 →
      tilt_compensate_angle ctx ntm tm n thrust i /
          tilt_compensate_angle ctx ntm tm n thrust j
        = tca_pre ctx ntm tm n thrust i / tca_pre ctx ntm tm n thrust j) := by
  have heq := tilt_compensate_angle_of_trigger ctx ntm tm n thrust htrig
  have hL0 : largest_tilted ctx.tilt_mask (tca_pre ctx ntm tm n thrust) n ≠ 0 :=
    ne_of_gt (lt_trans zero_lt_one htrig)
  constructor
  · intro i hi
    rw [heq]
    simp only [hi, if_true]
  · intro i j hi hj hpi hpj
    rw [heq]
    simp only [hi, hj, if_true]
    rw [← div_mul_div_comm, div_self (one_div_ne_zero hL0), mul_one]

theorem C5_witness :
    tilt_compensate_angle ⟨1, 0, 0, 0, 0, fun _ => 0⟩ 1 3 1 (fun _ => 1) 0
      = tca_pre ⟨1, 0, 0, 0, 0, fun _ => 0⟩ 1 3 1 (fun _ => 1) 0 *
        (1 / largest_tilted 1 (tca_pre ⟨1, 0, 0, 0, 0, fun _ => 0⟩ 1 3 1 (fun _ => 1)) 1) :=
  (C5_rescale_preserves_ratios ⟨1, 0, 0, 0, 0, fun _ => 0⟩ 1 3 1 (fun _ => 1)
    (by norm_num [largest_tilted, tca_pre, tca_pass2, tca_pass1, avg_tilt_thrust,
      tilt_total, tilt_count, is_motor_tilting, Nat.testBit_zero])).1 0 (by decide)

/-- C6: for every non-Binary actuation type moving toward cruise
(`up = false`), if the fast-tilt condition holds (pure manual control
mode, or armed and neither in VTOL mode nor in assisted flight) then the
rate used by `Tiltrotor::tilt_max_change` is floored at 90 deg/s;
otherwise the configured base rate (`max_rate_down_dps`, or
`max_rate_up_dps` when `max_rate_down_dps <= 0`) is used unchanged. -/
theorem C6_fast_tilt_floor (c : SlewCtx) (hb : c.ttype ≠ TiltType.binary) :
    (fast_tilt_cond c = true →
      90 ≤ effective_rate c false ∧
      tilt_max_change c false = max (base_rate c false) 90 * c.G_Dt / 90)
    ∧ (fast_tilt_cond c = false →
      effective_rate c false = base_rate c false ∧
      tilt_max_change c false = base_rate c false * c.G_Dt / 90) := by
  constructor
  · intro hf
    have he : effective_rate c false = max (base_rate c false) 90 := by
      unfold effective_rate
      rw [if_pos ⟨hb, rfl⟩, if_pos hf]
    refine ⟨?_, by rw [tilt_max_change, he]⟩
    rw [he]
    exact le_max_right _ _
  · intro hf
    have he : effective_rate c false = base_rate c false := by
      unfold effective_rate
      rw [if_pos ⟨hb, rfl⟩, if_neg (by simp [hf])]
    exact ⟨he, by rw [tilt_max_change, he]⟩

theorem C6_witness :
    90 ≤ effective_rate ⟨TiltType.continuous, 40, 0, true, false, false, false, 1/50⟩ false
    ∧ tilt_max_change ⟨TiltType.continuous, 40, 0, true, false, false, false, 1/50⟩ false
        = max (base_rate ⟨TiltType.continuous, 40, 0, true, false, false, false, 1/50⟩ false) 90
            * (1/50) / 90 :=
  (C6_fast_tilt_floor ⟨TiltType.continuous, 40, 0, true, false, false, false, 1/50⟩
    (by decide)).1 rfl

/-- C7: the ground-test branch of `Tiltrotor::vectoring` writes no
ground-test servo commands while the vehicle is armed, and none when the
elapsed time since the last arm-state change (32-bit wrapping difference)
is under 3000 ms. -/
theorem C7_ground_test_inactive (c : VecCtx)
    (h : c.armed = true ∨ u32_sub c.now c.last_armed_change < 3000) :
    vectoring_ground_writes c = none := by
  unfold vectoring_ground_writes
  rcases h with h | h
  · simp [h]
  · have hgt : ¬(u32_sub c.now c.last_armed_change > 3000) := by omega
    simp [hgt]

theorem C7_witness :
    vectoring_ground_writes ⟨5, 0, 0, 0, true, true, 5000, 0, true, 0, 1, 0, 0, 0⟩ = none :=
  C7_ground_test_inactive ⟨5, 0, 0, 0, true, true, 5000, 0, true, 0, 1, 0, 0, 0⟩ (Or.inl rfl)

/-- C8: for the Binary actuation type in fixed-wing (non-VTOL) mode, the
tilt servo is commanded full-forward (1000) on every cycle, including the
first; the masked forward-motor output is issued exactly on the cycles
where the slew-limited `current_tilt` (as updated this cycle) has reached
1.0 — in particular, entering from `current_tilt = 0` with a per-cycle
step below 1, no forward output is issued on the first cycle. -/
theorem C8_binary_fixed_wing_gating (c : SlewCtx) (throttle_scaled : ℚ)
    (tmask : Nat) (current_tilt : ℚ) :
    (binary_update c false throttle_scaled tmask current_tilt).servo = 1000
    ∧ ((binary_update c false throttle_scaled tmask current_tilt).fwdOut.isSome
        ↔ 1 ≤ (binary_update c false throttle_scaled tmask current_tilt).newTilt)
    ∧ (tilt_max_change c false < 1 →
        (binary_update c false throttle_scaled tmask 0).fwdOut = none) := by
  refine ⟨?_, ?_, ?_⟩
  · by_cases h : binary_slew_tilt c current_tilt true ≥ 1
    · simp [binary_update, binary_slew_servo, h]
    · simp [binary_update, binary_slew_servo, h]
  · by_cases h : binary_slew_tilt c current_tilt true ≥ 1
    · simp [binary_update, h]
    · simp [binary_update, h]
  · intro hmc
    have h0 : ¬(binary_slew_tilt c 0 true ≥ 1) := by
      have hb : binary_slew_tilt c 0 true
          = constrain_float (0 + tilt_max_change c false) 0 1 := by
        simp [binary_slew_tilt]
      rw [hb]
      unfold constrain_float
      push_neg
      split_ifs with h1 h2 <;> linarith
    simp [binary_update, h0]

theorem C8_witness :
    (binary_update ⟨TiltType.binary, 40, 0, false, true, false, false, 1/50⟩
        false 50 3 0).servo = 1000
    ∧ (binary_update ⟨TiltType.binary, 40, 0, false, true, false, false, 1/50⟩
        false 50 3 0).fwdOut = none :=
  ⟨(C8_binary_fixed_wing_gating ⟨TiltType.binary, 40, 0, false, true, false, false, 1/50⟩
      50 3 0).1,
   (C8_binary_fixed_wing_gating ⟨TiltType.binary, 40, 0, false, true, false, false, 1/50⟩
      50 3 0).2.2
     (by norm_num [tilt_max_change, effective_rate, base_rate, fast_tilt_cond])⟩

/-- C9: for the VectoredYaw type with `yaw_angle_deg = 5`,
`fixed_angle_deg = 0` and `current_tilt = 0`, the vectoring computation
yields `zero_out = 5/95` and a base servo output equal to `zero_out`. -/
theorem C9_vectored_yaw_numerics :
    zero_out 5 0 = 5 / 95
    ∧ base_output 5 0 0 = zero_out 5 0 := by
  constructor
  · norm_num [zero_out, total_angle]
  · norm_num [base_output]

theorem tilt_count_pos_of_tilting (m : Nat) :
    ∀ n i, i < n → is_motor_tilting m i = true → 0 < tilt_count m n := by
  intro n
  induction n with
  | zero => intro i hi; omega
  | succ k ih =>
    intro i hi ht
    rcases Nat.lt_or_ge i k with hik | hik
    · have := ih i hik ht
      unfold tilt_count
      split_ifs <;> omega
    · have hik' : i = k := by omega
      subst hik'
      unfold tilt_count
      rw [ht]
      simp

theorem tilt_count_zero_of_none (m : Nat) :
    ∀ n, (∀ i, i < n → is_motor_tilting m i = false) → tilt_count m n = 0 := by
  intro n
  induction n with
  | zero => intro _; rfl
  | succ k ih =>
    intro h
    have hk : is_motor_tilting m k = false := h k (Nat.lt_succ_self k)
    have hrest := ih fun i hi => h i (Nat.lt_succ_of_lt hi)
    unfold tilt_count
    rw [hk]
    simpa using hrest

/-- C10: `Tiltrotor::tilt_compensate_angle` computes the average tilted
thrust as `tilt_total / tilt_count` with no guard against a zero count;
the divisor is nonzero exactly under the precondition that at least one
of the first `n` motor indices is in the tilt mask, and is zero whenever
no such index exists. -/
theorem C10_unguarded_average (mask : Nat) (ntm tm : ℚ) (n : Nat)
    (thrust : Nat → ℚ) :
    (avg_tilt_thrust mask ntm tm n thrust
      = tilt_total mask (tca_pass1 mask ntm tm n thrust) n / (tilt_count mask n : ℚ))
    ∧ ((∃ i, i < n ∧ is_motor_tilting mask i = true) → 0 < tilt_count mask n)
    ∧ ((∀ i, i < n → is_motor_tilting mask i = false) → tilt_count mask n = 0) := by
  refine ⟨rfl, ?_, ?_⟩
  · rintro ⟨i, hi, ht⟩
    exact tilt_count_pos_of_tilting mask n i hi ht
  · intro h
    exact tilt_count_zero_of_none mask n h

theorem C10_witness : 0 < tilt_count 1 1 :=
  (C10_unguarded_average 1 1 1 1 (fun _ => 0)).2.1 ⟨0, Nat.zero_lt_one, by decide⟩

end Tiltrotor
